import Mathlib

/-!
Verification of the pixelmatch image-comparison library (TypeScript sources in
`src/pixelmatch.ts`, `src/compat.ts`, `src/validate.ts`) against its natural-language
specification.  The code is shallowly embedded: image byte buffers are `List ℕ`,
JavaScript numbers are modelled as exact rationals `ℚ`, the mutable output buffer is
a length together with a byte-indexed store `ℕ → ℚ`, and thrown validation errors
become an `Except`-style result via an explicit error value.
-/

/-- Read one byte of a pixel buffer (out-of-range reads yield 0; all reads performed
by the algorithm on validated images are in range). -/
def byte (d : List ℕ) (i : ℕ) : ℕ := d.getD i 0

/-- The 32-bit packed RGBA word of pixel `i`, as produced by viewing the byte buffer
through a little-endian `Uint32Array`. -/
def word32 (d : List ℕ) (i : ℕ) : ℕ :=
  byte d (4 * i) + 256 * byte d (4 * i + 1) + 65536 * byte d (4 * i + 2) +
    16777216 * byte d (4 * i + 3)

/-- An input image: RGBA8 interleaved byte data plus dimensions (`ImageLike`). -/
structure Image where
  data : List ℕ
  width : ℕ
  height : ℕ

/-- A mutable byte buffer handed in as the diff output: its length and its contents.
Cell values are rationals because the grayscale blend writes non-integral values
before the JavaScript typed-array coercion, which is not modelled. -/
structure Buffer where
  length : ℕ
  data : ℕ → ℚ

/-- The validation failures `validateInput` can throw.  The two buffer-type checks of
the source (`isPixelData`) cannot fail in this typed embedding and are omitted;
payloads carry the numbers interpolated into the thrown messages. -/
inductive ValidationError where
  | dimensionMismatch (w1 h1 w2 h2 : ℕ)
  | sizeMismatch (len1 len2 : ℕ)
  | dataSizeMismatch (expected got : ℕ)
  | outputSizeMismatch (expected got : ℕ)
deriving DecidableEq, Repr

/-- Discriminator for the output-size failure, used to state what kind of error a
given run produced. -/
def ValidationError.isOutputSizeError : ValidationError → Bool
  | .outputSizeMismatch _ _ => true
  | _ => false

/-- Discriminator for the dimension-mismatch failure. -/
def ValidationError.isDimensionError : ValidationError → Bool
  | .dimensionMismatch _ _ _ _ => true
  | _ => false

/-- Embedding of `validateInput` from `src/validate.ts`: the checks run in source
order (dimensions, data lengths, data length against geometry, then output length)
and the first failing check's error is thrown. -/
def validateInput (img1 img2 : Image) (output : Option Buffer) : Option ValidationError :=
  if img1.width ≠ img2.width ∨ img1.height ≠ img2.height then
    some (.dimensionMismatch img1.width img1.height img2.width img2.height)
  else if img1.data.length ≠ img2.data.length then
    some (.sizeMismatch img1.data.length img2.data.length)
  else if img1.data.length ≠ img1.width * img1.height * 4 then
    some (.dataSizeMismatch (img1.width * img1.height * 4) img1.data.length)
  else
    match output with
    | some o =>
        if o.length ≠ img1.width * img1.height * 4 then
          some (.outputSizeMismatch (img1.width * img1.height * 4) o.length)
        else none
    | none => none

/-- The summary record returned by a comparison (`PixelmatchResult`). -/
structure PixelmatchResult where
  diffCount : ℕ
  diffPercentage : ℚ
  totalPixels : ℕ
  aaCount : ℕ
  identical : Bool
deriving DecidableEq, Repr

/-- Embedding of `buildResult` from `src/validate.ts`. -/
def buildResult (diffCount aaCount totalPixels : ℕ) (identical : Bool) : PixelmatchResult :=
  { diffCount := diffCount
    diffPercentage := if totalPixels > 0 then (diffCount : ℚ) / totalPixels else 0
    totalPixels := totalPixels
    aaCount := aaCount
    identical := identical }

/-- Red component of the pseudo-checkerboard blend background at byte offset `k`. -/
def bgR (k : ℕ) : ℚ := 48 + 159 * ((k % 2 : ℕ) : ℚ)

/-- Green component of the blend background, tiling with a golden-ratio period
(`(k / 1.618033988749895) | 0` in the source, truncation of a nonnegative value). -/
def bgG (k : ℕ) : ℚ :=
  48 + 159 * (((⌊(k : ℚ) / 1.618033988749895⌋.toNat % 2 : ℕ)) : ℚ)

/-- Blue component of the blend background (period `2.618033988749895`). -/
def bgB (k : ℕ) : ℚ :=
  48 + 159 * (((⌊(k : ℚ) / 2.618033988749895⌋.toNat % 2 : ℕ)) : ℚ)

/-- Embedding of `colorDelta` from `src/pixelmatch.ts`: perceptual squared YIQ colour
distance between the RGBA samples at byte offsets `k` of `img1` and `m` of `img2`,
with sign encoding; `yOnly` returns the luma difference only. -/
def colorDelta (img1 img2 : List ℕ) (k m : ℕ) (yOnly : Bool) : ℚ :=
  let r1 : ℚ := byte img1 k
  let g1 : ℚ := byte img1 (k + 1)
  let b1 : ℚ := byte img1 (k + 2)
  let a1 : ℚ := byte img1 (k + 3)
  let r2 : ℚ := byte img2 m
  let g2 : ℚ := byte img2 (m + 1)
  let b2 : ℚ := byte img2 (m + 2)
  let a2 : ℚ := byte img2 (m + 3)
  let dr0 := r1 - r2
  let dg0 := g1 - g2
  let db0 := b1 - b2
  let da := a1 - a2
  if dr0 = 0 ∧ dg0 = 0 ∧ db0 = 0 ∧ da = 0 then 0
  else
    let dr := if a1 < 255 ∨ a2 < 255 then (r1 * a1 - r2 * a2 - bgR k * da) / 255 else dr0
    let dg := if a1 < 255 ∨ a2 < 255 then (g1 * a1 - g2 * a2 - bgG k * da) / 255 else dg0
    let db := if a1 < 255 ∨ a2 < 255 then (b1 * a1 - b2 * a2 - bgB k * da) / 255 else db0
    let y := dr * 0.29889531 + dg * 0.58662247 + db * 0.11448223
    if yOnly then y
    else
      let i := dr * 0.59597799 - dg * 0.2741761 - db * 0.32180189
      let q := dr * 0.21147017 - dg * 0.52261711 + db * 0.31114694
      let delta := 0.5053 * y * y + 0.299 * i * i + 0.1957 * q * q
      if y > 0 then -delta else delta

/-- Embedding of `drawPixel`: write `r,g,b` and an opaque alpha at byte offset `pos`. -/
def drawPixel (output : Buffer) (pos : ℕ) (r g b : ℚ) : Buffer :=
  { output with
      data := fun j =>
        if j = pos then r
        else if j = pos + 1 then g
        else if j = pos + 2 then b
        else if j = pos + 3 then 255
        else output.data j }

/-- The grayscale value written by `drawGrayPixel` for the source sample at offset `i`. -/
def grayValue (img : List ℕ) (i : ℕ) (alpha : ℚ) : ℚ :=
  255 + (((byte img i : ℚ) * 0.29889531 + (byte img (i + 1) : ℚ) * 0.58662247 +
    (byte img (i + 2) : ℚ) * 0.11448223 - 255) * alpha * (byte img (i + 3) : ℚ)) / 255

/-- Embedding of `drawGrayPixel`: blended grayscale rendition of `img`'s sample. -/
def drawGrayPixel (img : List ℕ) (i : ℕ) (alpha : ℚ) (output : Buffer) : Buffer :=
  drawPixel output i (grayValue img i alpha) (grayValue img i alpha) (grayValue img i alpha)

/-- The clipped 3x3 neighbourhood of `(x1, y1)` excluding the centre, in the
iteration order of the source (`x` outer from `x0` to `x2`, `y` inner). -/
def neighborList (x1 y1 width height : ℕ) : List (ℕ × ℕ) :=
  let x0 := x1 - 1
  let y0 := y1 - 1
  let x2 := min (x1 + 1) (width - 1)
  let y2 := min (y1 + 1) (height - 1)
  (((List.range' x0 (x2 + 1 - x0)).flatMap fun x =>
    (List.range' y0 (y2 + 1 - y0)).map fun y => (x, y)).filter
      fun p => !(p.1 == x1 && p.2 == y1))

/-- Initial value of the `zeroes` counter in `antialiased` and `hasManySiblings`:
1 when the 3x3 window of `(x1, y1)` is clipped on at least one side, else 0. -/
def borderInit (x1 y1 width height : ℕ) : ℕ :=
  if x1 = x1 - 1 ∨ x1 = min (x1 + 1) (width - 1) ∨ y1 = y1 - 1 ∨
      y1 = min (y1 + 1) (height - 1) then 1 else 0

/-- Pass 1 of `antialiased`: scan the neighbours accumulating the zero-delta count
and the extreme luma deltas; `none` models the early `return false` taken as soon as
the count exceeds 2. -/
def pass1 (img : List ℕ) (pos width : ℕ) :
    List (ℕ × ℕ) → ℕ → ℚ → ℚ → Option (ℚ × ℚ)
  | [], _, mn, mx => some (mn, mx)
  | p :: rest, zeroes, mn, mx =>
    let delta := colorDelta img img pos ((p.2 * width + p.1) * 4) true
    if delta = 0 then
      if zeroes + 1 > 2 then none
      else pass1 img pos width rest (zeroes + 1) mn mx
    else if delta < mn then pass1 img pos width rest zeroes delta mx
    else if delta > mx then pass1 img pos width rest zeroes mn delta
    else pass1 img pos width rest zeroes mn mx

/-- Loop body of `hasManySiblings`: count neighbours holding the same packed word as
the centre, returning true as soon as the count exceeds 2. -/
def hmsLoop (img : List ℕ) (width : ℕ) (val : ℕ) : List (ℕ × ℕ) → ℕ → Bool
  | [], _ => false
  | p :: rest, zeroes =>
    let z := zeroes + (if val = word32 img (p.2 * width + p.1) then 1 else 0)
    if z > 2 then true else hmsLoop img width val rest z

/-- Embedding of `hasManySiblings`: does the pixel at `(x1, y1)` have 3+ adjacent
pixels of the same packed colour (border positions seed the count with 1)? -/
def hasManySiblings (img : List ℕ) (x1 y1 width height : ℕ) : Bool :=
  hmsLoop img width (word32 img (y1 * width + x1)) (neighborList x1 y1 width height)
    (borderInit x1 y1 width height)

/-- Pass 2 of `antialiased`: re-scan the neighbours and succeed on the first one
whose luma delta ties the tracked minimum or maximum and that has many siblings in
either packed-word array. -/
def pass2 (img a b : List ℕ) (pos width height : ℕ) (mn mx : ℚ) :
    List (ℕ × ℕ) → Bool
  | [] => false
  | p :: rest =>
    let delta := colorDelta img img pos ((p.2 * width + p.1) * 4) true
    if delta = mn ∨ delta = mx then
      if hasManySiblings a p.1 p.2 width height ∨ hasManySiblings b p.1 p.2 width height
      then true
      else pass2 img a b pos width height mn mx rest
    else pass2 img a b pos width height mn mx rest

/-- Embedding of `antialiased` from `src/pixelmatch.ts` (the two-pass variant with
the relaxed either-image sibling check). -/
def antialiased (img : List ℕ) (x1 y1 width height : ℕ) (a b : List ℕ) : Bool :=
  let pos := (y1 * width + x1) * 4
  let ns := neighborList x1 y1 width height
  match pass1 img pos width ns (borderInit x1 y1 width height) 0 0 with
  | none => false
  | some (mn, mx) =>
    if mn = 0 ∨ mx = 0 then false
    else pass2 img a b pos width height mn mx ns

/-- The options record of the main entry point; `none` fields take the documented
defaults inside `pixelmatch`. -/
structure PixelmatchOptions where
  threshold : Option ℚ
  alpha : Option ℚ
  aaColor : Option (ℚ × ℚ × ℚ)
  diffColor : Option (ℚ × ℚ × ℚ)
  detectAntiAliasing : Option Bool
  diffColorAlt : Option (ℚ × ℚ × ℚ)
  diffMask : Option Bool
  output : Option Buffer

/-- Options with every field absent (the `{}` default argument of the source). -/
def emptyOptions : PixelmatchOptions :=
  ⟨none, none, none, none, none, none, none, none⟩

/-- Mutable state threaded through the main comparison loop: the two counters and
the optional output buffer. -/
structure CompState where
  diff : ℕ
  aa : ℕ
  out : Option Buffer

/-- One iteration of the main loop of `pixelmatch` at pixel index `i`
(`x = i % width`, `y = i / width`, byte offset `pos = i * 4`). -/
def pixelStep (data1 data2 : List ℕ) (width height : ℕ) (maxDelta alpha : ℚ)
    (aaC diffC altC : ℚ × ℚ × ℚ) (detectAA diffMask : Bool)
    (st : CompState) (i : ℕ) : CompState :=
  let x := i % width
  let y := i / width
  let pos := i * 4
  let delta : ℚ :=
    if word32 data1 i = word32 data2 i then 0 else colorDelta data1 data2 pos pos false
  if |delta| > maxDelta then
    if detectAA &&
        (antialiased data1 x y width height data1 data2 ||
          antialiased data2 x y width height data2 data1) then
      { st with
          aa := st.aa + 1
          out := if diffMask then st.out
                 else st.out.map fun o => drawPixel o pos aaC.1 aaC.2.1 aaC.2.2 }
    else
      { st with
          diff := st.diff + 1
          out := st.out.map fun o =>
            if delta < 0 then drawPixel o pos altC.1 altC.2.1 altC.2.2
            else drawPixel o pos diffC.1 diffC.2.1 diffC.2.2 }
  else
    { st with
        out := if diffMask then st.out
               else st.out.map fun o => drawGrayPixel data1 pos alpha o }

/-- The identical-images fast path's output pass: draw every pixel of `img1` into
the output through the grayscale blend. -/
def grayAll (data1 : List ℕ) (len : ℕ) (alpha : ℚ) (o : Buffer) : Buffer :=
  (List.range len).foldl (fun acc i => drawGrayPixel data1 (4 * i) alpha acc) o

/-- Embedding of the default export `pixelmatch` of `src/pixelmatch.ts`: validate,
short-circuit on word-identical buffers, otherwise classify every pixel.  The
returned pair carries the summary and the final state of the output buffer. -/
def pixelmatch (img1 img2 : Image) (options : PixelmatchOptions) :
    Except ValidationError (PixelmatchResult × Option Buffer) :=
  let threshold := options.threshold.getD 0.1
  let alpha := options.alpha.getD 0.1
  let aaColor := options.aaColor.getD (255, 255, 0)
  let diffColor := options.diffColor.getD (255, 0, 0)
  let detectAntiAliasing := options.detectAntiAliasing.getD true
  let diffColorAlt := options.diffColorAlt.getD diffColor
  let diffMask := options.diffMask.getD false
  match validateInput img1 img2 options.output with
  | some e => Except.error e
  | none =>
    let data1 := img1.data
    let data2 := img2.data
    let width := img1.width
    let height := img1.height
    let len := width * height
    let identical := (List.range len).all fun i => word32 data1 i == word32 data2 i
    if identical then
      let out :=
        if diffMask then options.output
        else options.output.map fun o => grayAll data1 len alpha o
      Except.ok (buildResult 0 0 len true, out)
    else
      let maxDelta := 35215 * threshold * threshold
      let final := (List.range len).foldl
        (pixelStep data1 data2 width height maxDelta alpha aaColor diffColor diffColorAlt
          detectAntiAliasing diffMask)
        ⟨0, 0, options.output⟩
      Except.ok (buildResult final.diff final.aa len false, final.out)

/-- The legacy options record of the compat entry point (`LegacyPixelmatchOptions`). -/
structure LegacyPixelmatchOptions where
  threshold : Option ℚ
  includeAA : Option Bool
  alpha : Option ℚ
  aaColor : Option (ℚ × ℚ × ℚ)
  diffColor : Option (ℚ × ℚ × ℚ)
  diffColorAlt : Option (ℚ × ℚ × ℚ)
  diffMask : Option Bool

/-- Legacy options with every field absent. -/
def emptyLegacyOptions : LegacyPixelmatchOptions :=
  ⟨none, none, none, none, none, none, none⟩

/-- Embedding of the legacy positional adapter of `src/compat.ts`: forward to the
core comparison with `detectAntiAliasing` the negation of `includeAA` (absent stays
absent) and return only the diff count. -/
def compatPixelmatch (img1 img2 : List ℕ) (output : Option Buffer) (width height : ℕ)
    (options : LegacyPixelmatchOptions) : Except ValidationError ℕ :=
  Except.map (fun r => r.1.diffCount)
    (pixelmatch ⟨img1, width, height⟩ ⟨img2, width, height⟩
      { threshold := options.threshold
        alpha := options.alpha
        aaColor := options.aaColor
        diffColor := options.diffColor
        detectAntiAliasing := options.includeAA.map fun b => !b
        diffColorAlt := options.diffColorAlt
        diffMask := options.diffMask
        output := output })

/-- The colour-distance cutoff a given option record induces. -/
def maxDeltaOf (options : PixelmatchOptions) : ℚ :=
  35215 * options.threshold.getD 0.1 * options.threshold.getD 0.1

/-- Whether pixel `i`'s colour delta exceeds the cutoff (the condition under which
the main loop counts the pixel at all). -/
def overThreshold (data1 data2 : List ℕ) (maxDelta : ℚ) (i : ℕ) : Bool :=
  decide (|if word32 data1 i = word32 data2 i then (0 : ℚ)
           else colorDelta data1 data2 (i * 4) (i * 4) false| > maxDelta)

/-- Whether the main loop classifies pixel `i` as anti-aliased (either image's
neighbourhood reports anti-aliasing). -/
def isAAat (data1 data2 : List ℕ) (width height i : ℕ) : Bool :=
  antialiased data1 (i % width) (i / width) width height data1 data2 ||
    antialiased data2 (i % width) (i / width) width height data2 data1

/-- Whether the main loop counts pixel `i` in `diffCount`. -/
def countedPixel (data1 data2 : List ℕ) (width height : ℕ) (maxDelta : ℚ)
    (detectAA : Bool) (i : ℕ) : Bool :=
  overThreshold data1 data2 maxDelta i &&
    !(detectAA && isAAat data1 data2 width height i)

/-- Whether the main loop counts pixel `i` in `aaCount`. -/
def aaPixel (data1 data2 : List ℕ) (width height : ℕ) (maxDelta : ℚ)
    (detectAA : Bool) (i : ℕ) : Bool :=
  overThreshold data1 data2 maxDelta i &&
    (detectAA && isAAat data1 data2 width height i)

/-- Number of neighbours of `(x1, y1)` whose luma-only colour delta against the
centre is exactly zero. -/
def zeroCount (img : List ℕ) (x1 y1 width height : ℕ) : ℕ :=
  (neighborList x1 y1 width height).countP fun p =>
    decide (colorDelta img img ((y1 * width + x1) * 4) ((p.2 * width + p.1) * 4) true = 0)

/-- Channel-wise differences `(dr, dg, db)` after the conditional background blend,
exactly as `colorDelta` computes them past its zero guard. -/
def channelDiffs (img1 img2 : List ℕ) (k m : ℕ) : ℚ × ℚ × ℚ :=
  let r1 : ℚ := byte img1 k
  let g1 : ℚ := byte img1 (k + 1)
  let b1 : ℚ := byte img1 (k + 2)
  let a1 : ℚ := byte img1 (k + 3)
  let r2 : ℚ := byte img2 m
  let g2 : ℚ := byte img2 (m + 1)
  let b2 : ℚ := byte img2 (m + 2)
  let a2 : ℚ := byte img2 (m + 3)
  if a1 < 255 ∨ a2 < 255 then
    ((r1 * a1 - r2 * a2 - bgR k * (a1 - a2)) / 255,
      (g1 * a1 - g2 * a2 - bgG k * (a1 - a2)) / 255,
      (b1 * a1 - b2 * a2 - bgB k * (a1 - a2)) / 255)
  else (r1 - r2, g1 - g2, b1 - b2)

/-- The `y` (luma difference) component of the YIQ transform of the two samples. -/
def yiqY (img1 img2 : List ℕ) (k m : ℕ) : ℚ :=
  (channelDiffs img1 img2 k m).1 * 0.29889531 +
    (channelDiffs img1 img2 k m).2.1 * 0.58662247 +
    (channelDiffs img1 img2 k m).2.2 * 0.11448223

/-- The `i` chroma component of the YIQ transform. -/
def yiqI (img1 img2 : List ℕ) (k m : ℕ) : ℚ :=
  (channelDiffs img1 img2 k m).1 * 0.59597799 -
    (channelDiffs img1 img2 k m).2.1 * 0.2741761 -
    (channelDiffs img1 img2 k m).2.2 * 0.32180189

/-- The `q` chroma component of the YIQ transform. -/
def yiqQ (img1 img2 : List ℕ) (k m : ℕ) : ℚ :=
  (channelDiffs img1 img2 k m).1 * 0.21147017 -
    (channelDiffs img1 img2 k m).2.1 * 0.52261711 +
    (channelDiffs img1 img2 k m).2.2 * 0.31114694

/-- The squared YIQ distance `0.5053 y^2 + 0.299 i^2 + 0.1957 q^2` of the spec. -/
def yiqDistSq (img1 img2 : List ℕ) (k m : ℕ) : ℚ :=
  0.5053 * yiqY img1 img2 k m * yiqY img1 img2 k m +
    0.299 * yiqI img1 img2 k m * yiqI img1 img2 k m +
    0.1957 * yiqQ img1 img2 k m * yiqQ img1 img2 k m

/-- The guard of `colorDelta`: all four raw channel differences vanish. -/
def allZeroDiffs (img1 img2 : List ℕ) (k m : ℕ) : Prop :=
  (byte img1 k : ℚ) - byte img2 m = 0 ∧
    (byte img1 (k + 1) : ℚ) - byte img2 (m + 1) = 0 ∧
    (byte img1 (k + 2) : ℚ) - byte img2 (m + 2) = 0 ∧
    (byte img1 (k + 3) : ℚ) - byte img2 (m + 3) = 0

instance (img1 img2 : List ℕ) (k m : ℕ) : Decidable (allZeroDiffs img1 img2 k m) := by
  unfold allZeroDiffs; infer_instance

/-- Whether `colorDelta` blends the samples against the background (either sample is
not fully opaque). -/
def doBlend (img1 img2 : List ℕ) (k m : ℕ) : Bool :=
  decide ((byte img1 (k + 3) : ℚ) < 255 ∨ (byte img2 (m + 3) : ℚ) < 255)

/-- One channel blended over a background colour with the sample's alpha. -/
def blendChannel (c a bg : ℚ) : ℚ := (c * a + bg * (255 - a)) / 255

/-- Perceived luma of the sample of `img` at byte offset `j` as `colorDelta` sees
it: blended against the checkerboard background anchored at offset `k` when `blend`
is set.  "Sample A is brighter than sample B" is `lumaOf` of A exceeding that of B. -/
def lumaOf (img : List ℕ) (j k : ℕ) (blend : Bool) : ℚ :=
  let r : ℚ := byte img j
  let g : ℚ := byte img (j + 1)
  let b : ℚ := byte img (j + 2)
  let a : ℚ := byte img (j + 3)
  if blend then
    blendChannel r a (bgR k) * 0.29889531 + blendChannel g a (bgG k) * 0.58662247 +
      blendChannel b a (bgB k) * 0.11448223
  else r * 0.29889531 + g * 0.58662247 + b * 0.11448223

/-- A sample 1x1 image used as a concrete witness input. -/
def img1x1 : Image := ⟨[7, 7, 7, 255], 1, 1⟩

/-- A 1x1 opaque black image. -/
def imgBlack1 : Image := ⟨[0, 0, 0, 255], 1, 1⟩

/-- A 1x1 opaque white image. -/
def imgWhite1 : Image := ⟨[255, 255, 255, 255], 1, 1⟩

/-- A 3x3 opaque grayscale gradient (rows 100, 150, 200), witness input for the
anti-aliasing classifier. -/
def imgGrad3 : List ℕ :=
  [100, 100, 100, 255, 100, 100, 100, 255, 100, 100, 100, 255,
   150, 150, 150, 255, 150, 150, 150, 255, 150, 150, 150, 255,
   200, 200, 200, 255, 200, 200, 200, 255, 200, 200, 200, 255]

/-- A 3x3 opaque uniform gray image (flat region, witness input). -/
def imgFlat3 : List ℕ :=
  [150, 150, 150, 255, 150, 150, 150, 255, 150, 150, 150, 255,
   150, 150, 150, 255, 150, 150, 150, 255, 150, 150, 150, 255,
   150, 150, 150, 255, 150, 150, 150, 255, 150, 150, 150, 255]

/-- A 3x3 opaque image whose outer rows (140) are brighter-delta only relative to
the middle row (150): pass 1 ends with `min = 0` (witness input). -/
def imgOneSided3 : List ℕ :=
  [140, 140, 140, 255, 140, 140, 140, 255, 140, 140, 140, 255,
   150, 150, 150, 255, 150, 150, 150, 255, 150, 150, 150, 255,
   140, 140, 140, 255, 140, 140, 140, 255, 140, 140, 140, 255]

/-- A 4-byte all-zero output buffer for witnesses. -/
def bufZ4 : Buffer := ⟨4, fun _ => 0⟩

/-! ## Validator ordering (C5) -/

/-- C5 (amended): the validator checks, in order, dimensions, then the two data
lengths, then data length against `width*height*4`, and the output length only
last; for inputs violating several checks the earliest in this order wins.  In
particular, mismatched dimensions together with a wrong-length output buffer fail
with the dimension error, not the output-size error. -/
theorem validateInput_check_order (img1 img2 : Image) (out : Option Buffer) :
    ((img1.width ≠ img2.width ∨ img1.height ≠ img2.height) →
      validateInput img1 img2 out =
        some (.dimensionMismatch img1.width img1.height img2.width img2.height)) ∧
    (img1.width = img2.width → img1.height = img2.height →
      img1.data.length ≠ img2.data.length →
      validateInput img1 img2 out =
        some (.sizeMismatch img1.data.length img2.data.length)) ∧
    (img1.width = img2.width → img1.height = img2.height →
      img1.data.length = img2.data.length →
      img1.data.length ≠ img1.width * img1.height * 4 →
      validateInput img1 img2 out =
        some (.dataSizeMismatch (img1.width * img1.height * 4) img1.data.length)) ∧
    (∀ o, out = some o → img1.width = img2.width → img1.height = img2.height →
      img1.data.length = img2.data.length →
      img1.data.length = img1.width * img1.height * 4 →
      o.length ≠ img1.width * img1.height * 4 →
      validateInput img1 img2 out =
        some (.outputSizeMismatch (img1.width * img1.height * 4) o.length)) := by
  refine ⟨fun hdim => ?_, fun hw hh hlen => ?_, fun hw hh hlen hgeo => ?_,
    fun o ho hw hh hlen hgeo hout => ?_⟩
  · rw [validateInput.eq_def, if_pos hdim]
  · rw [validateInput.eq_def, if_neg (by tauto), if_pos hlen]
  · rw [validateInput.eq_def, if_neg (by tauto), if_neg (by tauto), if_pos hgeo]
  · rw [validateInput.eq_def, if_neg (by tauto), if_neg (by tauto), if_neg (by tauto), ho]
    simp only [if_pos hout]

/-- C5 witness: a concrete dimension mismatch produces the dimension error. -/
theorem validateInput_check_order_witness :
    ((1 : ℕ) ≠ 2 ∨ (1 : ℕ) ≠ 1) ∧
    validateInput ⟨[0, 0, 0, 255], 1, 1⟩ ⟨[0, 0, 0, 255, 0, 0, 0, 255], 2, 1⟩ none =
      some (ValidationError.dimensionMismatch 1 1 2 1) :=
  ⟨by decide,
    (validateInput_check_order ⟨[0, 0, 0, 255], 1, 1⟩ ⟨[0, 0, 0, 255, 0, 0, 0, 255], 2, 1⟩
      none).1 (by decide)⟩

/-- C5 counterexample: well-typed buffers, mismatched dimensions, and a supplied
output buffer of wrong length fail with the dimension error, not with the
output-size error claimed by the spec's check ordering. -/
theorem validateInput_order_cex :
    validateInput ⟨[0, 0, 0, 255], 1, 1⟩ ⟨[0, 0, 0, 255, 0, 0, 0, 255], 2, 1⟩
        (some ⟨100, fun _ => 0⟩) =
      some (ValidationError.dimensionMismatch 1 1 2 1) ∧
    ValidationError.isOutputSizeError (ValidationError.dimensionMismatch 1 1 2 1) = false := by
  exact ⟨by decide, by decide⟩

/-! ## Colour metric sign encoding (C4) -/

/-- Helper: past its zero guard, `colorDelta` in full mode computes exactly the
YIQ distance with the sign given by the luma component. -/
theorem colorDelta_full_eq (img1 img2 : List ℕ) (k m : ℕ)
    (h : ¬ allZeroDiffs img1 img2 k m) :
    colorDelta img1 img2 k m false =
      if 0 < yiqY img1 img2 k m then -(yiqDistSq img1 img2 k m)
      else yiqDistSq img1 img2 k m := by
  rw [colorDelta]
  rw [if_neg (by simpa [allZeroDiffs] using h)]
  by_cases hb : (byte img1 (k + 3) : ℚ) < 255 ∨ (byte img2 (m + 3) : ℚ) < 255 <;>
    simp only [yiqDistSq, yiqY, yiqI, yiqQ, channelDiffs, if_pos, if_neg, hb, if_true,
      if_false, Bool.false_eq_true, ite_true, ite_false, gt_iff_lt]

/-- Helper: the luma component is the difference of the two samples' perceived
lumas (blended when `colorDelta` blends). -/
theorem yiqY_eq_luma_sub (img1 img2 : List ℕ) (k m : ℕ) :
    yiqY img1 img2 k m =
      lumaOf img1 k k (doBlend img1 img2 k m) - lumaOf img2 m k (doBlend img1 img2 k m) := by
  by_cases hb : (byte img1 (k + 3) : ℚ) < 255 ∨ (byte img2 (m + 3) : ℚ) < 255
  · have hdb : doBlend img1 img2 k m = true := by
      simp only [doBlend, decide_eq_true_eq]; exact hb
    simp only [yiqY, channelDiffs, lumaOf, blendChannel, hdb, if_pos hb, ite_true]
    ring
  · have hdb : doBlend img1 img2 k m = false := by
      simp only [doBlend, decide_eq_false_iff_not]; exact hb
    simp only [yiqY, channelDiffs, lumaOf, blendChannel, hdb, if_neg hb,
      Bool.false_eq_true, ite_false]
    ring

/-- Helper: the YIQ distance is nonnegative. -/
theorem yiqDistSq_nonneg (img1 img2 : List ℕ) (k m : ℕ) : 0 ≤ yiqDistSq img1 img2 k m := by
  unfold yiqDistSq
  nlinarith [mul_self_nonneg (yiqY img1 img2 k m), mul_self_nonneg (yiqI img1 img2 k m),
    mul_self_nonneg (yiqQ img1 img2 k m)]

/-- Helper: the YIQ distance is positive whenever the luma component is. -/
theorem yiqDistSq_pos (img1 img2 : List ℕ) (k m : ℕ) (h : 0 < yiqY img1 img2 k m) :
    0 < yiqDistSq img1 img2 k m := by
  unfold yiqDistSq
  nlinarith [mul_self_nonneg (yiqI img1 img2 k m), mul_self_nonneg (yiqQ img1 img2 k m),
    mul_pos h h]

/-- C4 (amended): for samples whose four channel differences are not all zero,
full-mode `colorDelta` returns the squared YIQ distance
`0.5053 y^2 + 0.299 i^2 + 0.1957 q^2` negated when `y > 0`, so the returned value
is negative exactly when sample A is brighter than sample B (equivalently, a
negative — not positive — delta means sample B is darker than sample A). -/
theorem colorDelta_sign_encoding (img1 img2 : List ℕ) (k m : ℕ)
    (h : ¬ allZeroDiffs img1 img2 k m) :
    colorDelta img1 img2 k m false =
      (if 0 < yiqY img1 img2 k m then -(yiqDistSq img1 img2 k m)
       else yiqDistSq img1 img2 k m) ∧
    (colorDelta img1 img2 k m false < 0 ↔
      lumaOf img2 m k (doBlend img1 img2 k m) < lumaOf img1 k k (doBlend img1 img2 k m)) := by
  have he := colorDelta_full_eq img1 img2 k m h
  refine ⟨he, ?_⟩
  rw [he]
  have hluma : 0 < yiqY img1 img2 k m ↔
      lumaOf img2 m k (doBlend img1 img2 k m) < lumaOf img1 k k (doBlend img1 img2 k m) := by
    rw [yiqY_eq_luma_sub]; constructor <;> intro hx <;> linarith
  by_cases hy : 0 < yiqY img1 img2 k m
  · rw [if_pos hy]
    have := yiqDistSq_pos img1 img2 k m hy
    constructor
    · intro _; exact hluma.mp hy
    · intro _; linarith
  · rw [if_neg hy]
    have := yiqDistSq_nonneg img1 img2 k m
    constructor
    · intro hc; linarith
    · intro hc; exact absurd (hluma.mpr hc) hy

/-- C4 witness: black versus white samples have non-zero channel differences, and
the sign characterization holds there. -/
theorem colorDelta_sign_encoding_witness :
    ¬ allZeroDiffs imgBlack1.data imgWhite1.data 0 0 ∧
    (colorDelta imgBlack1.data imgWhite1.data 0 0 false =
      (if 0 < yiqY imgBlack1.data imgWhite1.data 0 0 then
        -(yiqDistSq imgBlack1.data imgWhite1.data 0 0)
       else yiqDistSq imgBlack1.data imgWhite1.data 0 0) ∧
    (colorDelta imgBlack1.data imgWhite1.data 0 0 false < 0 ↔
      lumaOf imgWhite1.data 0 0 (doBlend imgBlack1.data imgWhite1.data 0 0) <
        lumaOf imgBlack1.data 0 0 (doBlend imgBlack1.data imgWhite1.data 0 0))) :=
  ⟨by norm_num [allZeroDiffs, byte, imgBlack1, imgWhite1],
    colorDelta_sign_encoding imgBlack1.data imgWhite1.data 0 0
      (by norm_num [allZeroDiffs, byte, imgBlack1, imgWhite1])⟩

/-- C4 counterexample: at A = opaque black, B = opaque white, the returned full-mode
delta is positive, yet sample B is strictly brighter — not darker — than sample A,
refuting "a positive delta means sample B is darker than sample A". -/
theorem colorDelta_positive_brighter_cex :
    0 < colorDelta imgBlack1.data imgWhite1.data 0 0 false ∧
    lumaOf imgBlack1.data 0 0 (doBlend imgBlack1.data imgWhite1.data 0 0) <
      lumaOf imgWhite1.data 0 0 (doBlend imgBlack1.data imgWhite1.data 0 0) := by
  constructor <;>
    norm_num [colorDelta, lumaOf, doBlend, byte, imgBlack1, imgWhite1]

/-! ## Anti-aliasing classifier (C2, C3) -/

/-- Helper: pass 2 succeeds exactly when some neighbour in the scanned list ties an
extreme delta and has many siblings in either word array — an existence statement
independent of scan order. -/
theorem pass2_iff (img a b : List ℕ) (pos width height : ℕ) (mn mx : ℚ)
    (l : List (ℕ × ℕ)) :
    pass2 img a b pos width height mn mx l = true ↔
      ∃ p ∈ l,
        (colorDelta img img pos ((p.2 * width + p.1) * 4) true = mn ∨
          colorDelta img img pos ((p.2 * width + p.1) * 4) true = mx) ∧
        (hasManySiblings a p.1 p.2 width height = true ∨
          hasManySiblings b p.1 p.2 width height = true) := by
  induction l with
  | nil => simp [pass2]
  | cons p rest ih =>
    rw [pass2]
    split_ifs with h1 h2
    · constructor
      · intro _
        exact ⟨p, List.mem_cons_self p rest, h1, h2⟩
      · intro _; rfl
    · rw [ih]
      constructor
      · rintro ⟨q, hq, hd, hs⟩; exact ⟨q, List.mem_cons_of_mem _ hq, hd, hs⟩
      · rintro ⟨q, hq, hd, hs⟩
        rcases List.mem_cons.mp hq with rfl | hq'
        · exact absurd hs h2
        · exact ⟨q, hq', hd, hs⟩
    · rw [ih]
      constructor
      · rintro ⟨q, hq, hd, hs⟩; exact ⟨q, List.mem_cons_of_mem _ hq, hd, hs⟩
      · rintro ⟨q, hq, hd, hs⟩
        rcases List.mem_cons.mp hq with rfl | hq'
        · exact absurd hd h1
        · exact ⟨q, hq', hd, hs⟩

/-- Helper: membership in the clipped neighbourhood list is exactly the window
bounds minus the centre. -/
theorem mem_neighborList (x1 y1 width height x y : ℕ) :
    (x, y) ∈ neighborList x1 y1 width height ↔
      x1 - 1 ≤ x ∧ x ≤ min (x1 + 1) (width - 1) ∧ y1 - 1 ≤ y ∧
        y ≤ min (y1 + 1) (height - 1) ∧ ¬(x = x1 ∧ y = y1) := by
  simp only [neighborList, List.mem_filter, List.mem_flatMap, List.mem_map,
    List.mem_range'_1, Bool.not_eq_true', Bool.and_eq_false_iff, beq_eq_false_iff_ne,
    ne_eq, Prod.mk.injEq]
  constructor
  · rintro ⟨⟨a, ⟨ha1, ha2⟩, c, ⟨hc1, hc2⟩, rfl, rfl⟩, hcen⟩
    refine ⟨ha1, by omega, hc1, by omega, ?_⟩
    rcases hcen with h | h <;> intro hx <;> exact h (by tauto)
  · rintro ⟨h1, h2, h3, h4, h5⟩
    exact ⟨⟨x, ⟨h1, by omega⟩, y, ⟨h3, by omega⟩, rfl, rfl⟩, by tauto⟩

/-- Helper: pass 1 bails out with `none` whenever the zeroes seed plus the number
of zero-delta neighbours in the remaining list exceeds 2 (the counter only grows,
so exceeding 2 at the end is the same as exceeding it mid-scan). -/
theorem pass1_eq_none_of_zeroes (img : List ℕ) (pos width : ℕ) (l : List (ℕ × ℕ)) :
    ∀ z mn mx, z ≤ 2 →
      2 < z + l.countP (fun p =>
        decide (colorDelta img img pos ((p.2 * width + p.1) * 4) true = 0)) →
      pass1 img pos width l z mn mx = none := by
  induction l with
  | nil =>
    intro z mn mx hz hgt
    rw [List.countP_nil] at hgt
    omega
  | cons p rest ih =>
    intro z mn mx hz hgt
    rw [List.countP_cons] at hgt
    rw [pass1]
    by_cases h0 : colorDelta img img pos ((p.2 * width + p.1) * 4) true = 0
    · rw [if_pos h0]
      by_cases hz2 : z + 1 > 2
      · rw [if_pos hz2]
      · rw [if_neg hz2]
        apply ih
        · omega
        · simp [h0] at hgt
          omega
    · rw [if_neg h0]
      have hcnt : 2 < z + rest.countP (fun p =>
          decide (colorDelta img img pos ((p.2 * width + p.1) * 4) true = 0)) := by
        simp [h0] at hgt
        omega
      split_ifs <;> exact ih _ _ _ hz hcnt

/-- C3: the classifier returns false when the zero-delta count (seeded with 1 at
borders) exceeds 2, and also whenever pass 1 completes with `min = 0` or `max = 0`. -/
theorem antialiased_rejects_flat_and_onesided (img a b : List ℕ) (x1 y1 width height : ℕ) :
    (2 < borderInit x1 y1 width height + zeroCount img x1 y1 width height →
      antialiased img x1 y1 width height a b = false) ∧
    (∀ mn mx,
      pass1 img ((y1 * width + x1) * 4) width (neighborList x1 y1 width height)
        (borderInit x1 y1 width height) 0 0 = some (mn, mx) →
      mn = 0 ∨ mx = 0 → antialiased img x1 y1 width height a b = false) := by
  constructor
  · intro hz
    have hb2 : borderInit x1 y1 width height ≤ 2 := by
      rw [borderInit]; split_ifs <;> omega
    have hnone := pass1_eq_none_of_zeroes img ((y1 * width + x1) * 4) width
      (neighborList x1 y1 width height) (borderInit x1 y1 width height) 0 0 hb2
      (by rw [zeroCount] at hz; exact hz)
    simp only [antialiased]
    rw [hnone]
  · intro mn mx hp hz
    simp only [antialiased]
    rw [hp]
    show (if mn = 0 ∨ mx = 0 then false
      else pass2 img a b ((y1 * width + x1) * 4) width height mn mx
        (neighborList x1 y1 width height)) = false
    rw [if_pos hz]

/-- C2: when pass 1 completes with a strictly negative minimum and strictly
positive maximum, the classifier returns true exactly when some neighbour of the
clipped 3x3 window (excluding the centre) ties one of the extremes and has many
siblings in either packed-word array — a scan-order-independent characterization. -/
theorem antialiased_pass2_characterization (img a b : List ℕ) (x1 y1 width height : ℕ)
    (mn mx : ℚ)
    (hp : pass1 img ((y1 * width + x1) * 4) width (neighborList x1 y1 width height)
      (borderInit x1 y1 width height) 0 0 = some (mn, mx))
    (hmn : mn < 0) (hmx : 0 < mx) :
    antialiased img x1 y1 width height a b = true ↔
      ∃ x y, x1 - 1 ≤ x ∧ x ≤ min (x1 + 1) (width - 1) ∧ y1 - 1 ≤ y ∧
        y ≤ min (y1 + 1) (height - 1) ∧ ¬(x = x1 ∧ y = y1) ∧
        (colorDelta img img ((y1 * width + x1) * 4) ((y * width + x) * 4) true = mn ∨
          colorDelta img img ((y1 * width + x1) * 4) ((y * width + x) * 4) true = mx) ∧
        (hasManySiblings a x y width height = true ∨
          hasManySiblings b x y width height = true) := by
  simp only [antialiased]
  rw [hp]
  show (if mn = 0 ∨ mx = 0 then false
    else pass2 img a b ((y1 * width + x1) * 4) width height mn mx
      (neighborList x1 y1 width height)) = true ↔ _
  rw [if_neg (by rintro (h | h) <;> simp [h] at hmn hmx)]
  rw [pass2_iff]
  constructor
  · rintro ⟨⟨x, y⟩, hmem, hd, hs⟩
    obtain ⟨h1, h2, h3, h4, h5⟩ := (mem_neighborList x1 y1 width height x y).mp hmem
    exact ⟨x, y, h1, h2, h3, h4, h5, hd, hs⟩
  · rintro ⟨x, y, h1, h2, h3, h4, h5, hd, hs⟩
    exact ⟨(x, y), (mem_neighborList x1 y1 width height x y).mpr ⟨h1, h2, h3, h4, h5⟩, hd, hs⟩

set_option maxHeartbeats 2000000 in
/-- C2 witness: the centre of a 3x3 vertical gradient completes pass 1 with
extremes of both signs, and the characterization applies there. -/
theorem antialiased_pass2_characterization_witness :
    pass1 imgGrad3 ((1 * 3 + 1) * 4) 3 (neighborList 1 1 3 3) (borderInit 1 1 3 3) 0 0 =
      some (-50.0000005, 50.0000005) ∧
    (-50.0000005 : ℚ) < 0 ∧ (0 : ℚ) < 50.0000005 ∧
    (antialiased imgGrad3 1 1 3 3 imgGrad3 imgGrad3 = true ↔
      ∃ x y, 1 - 1 ≤ x ∧ x ≤ min (1 + 1) (3 - 1) ∧ 1 - 1 ≤ y ∧ y ≤ min (1 + 1) (3 - 1) ∧
        ¬(x = 1 ∧ y = 1) ∧
        (colorDelta imgGrad3 imgGrad3 ((1 * 3 + 1) * 4) ((y * 3 + x) * 4) true =
            -50.0000005 ∨
          colorDelta imgGrad3 imgGrad3 ((1 * 3 + 1) * 4) ((y * 3 + x) * 4) true =
            50.0000005) ∧
        (hasManySiblings imgGrad3 x y 3 3 = true ∨
          hasManySiblings imgGrad3 x y 3 3 = true)) := by
  have hp : pass1 imgGrad3 ((1 * 3 + 1) * 4) 3 (neighborList 1 1 3 3)
      (borderInit 1 1 3 3) 0 0 = some (-50.0000005, 50.0000005) := by
    rw [show neighborList 1 1 3 3 =
        [(0, 0), (0, 1), (0, 2), (1, 0), (1, 2), (2, 0), (2, 1), (2, 2)] from by decide,
      show borderInit 1 1 3 3 = 0 from by decide]
    norm_num [pass1, colorDelta, byte, imgGrad3]
  exact ⟨hp, by norm_num, by norm_num,
    antialiased_pass2_characterization imgGrad3 imgGrad3 imgGrad3 1 1 3 3 _ _ hp
      (by norm_num) (by norm_num)⟩

set_option maxHeartbeats 2000000 in
/-- C3 witness: a flat 3x3 region trips the zero-count bailout, and a one-sided
3x3 contrast completes pass 1 with `min = 0`; the classifier rejects both. -/
theorem antialiased_rejects_flat_and_onesided_witness :
    (2 < borderInit 1 1 3 3 + zeroCount imgFlat3 1 1 3 3 ∧
      antialiased imgFlat3 1 1 3 3 imgFlat3 imgFlat3 = false) ∧
    (pass1 imgOneSided3 ((1 * 3 + 1) * 4) 3 (neighborList 1 1 3 3) (borderInit 1 1 3 3) 0 0 =
        some (0, 10.0000001) ∧ ((0 : ℚ) = 0 ∨ (10.0000001 : ℚ) = 0) ∧
      antialiased imgOneSided3 1 1 3 3 imgOneSided3 imgOneSided3 = false) := by
  have hz : 2 < borderInit 1 1 3 3 + zeroCount imgFlat3 1 1 3 3 := by
    rw [zeroCount]
    rw [show neighborList 1 1 3 3 =
        [(0, 0), (0, 1), (0, 2), (1, 0), (1, 2), (2, 0), (2, 1), (2, 2)] from by decide,
      show borderInit 1 1 3 3 = 0 from by decide]
    norm_num [List.countP_cons, colorDelta, byte, imgFlat3]
  have hp : pass1 imgOneSided3 ((1 * 3 + 1) * 4) 3 (neighborList 1 1 3 3)
      (borderInit 1 1 3 3) 0 0 = some (0, 10.0000001) := by
    rw [show neighborList 1 1 3 3 =
        [(0, 0), (0, 1), (0, 2), (1, 0), (1, 2), (2, 0), (2, 1), (2, 2)] from by decide,
      show borderInit 1 1 3 3 = 0 from by decide]
    norm_num [pass1, colorDelta, byte, imgOneSided3]
  exact ⟨⟨hz, (antialiased_rejects_flat_and_onesided imgFlat3 imgFlat3 imgFlat3 1 1 3 3).1 hz⟩,
    ⟨hp, Or.inl rfl,
      (antialiased_rejects_flat_and_onesided imgOneSided3 imgOneSided3 imgOneSided3
        1 1 3 3).2 0 10.0000001 hp (Or.inl rfl)⟩⟩

/-! ## Main loop counting (C1, C6, C7, C8, C10) -/

/-- Helper: a single loop iteration bumps `diff` exactly on counted pixels and `aa`
exactly on anti-aliased ones. -/
theorem pixelStep_counts (d1 d2 : List ℕ) (w h : ℕ) (maxD alpha : ℚ)
    (aaC dC altC : ℚ × ℚ × ℚ) (dAA dM : Bool) (st : CompState) (i : ℕ) :
    (pixelStep d1 d2 w h maxD alpha aaC dC altC dAA dM st i).diff =
      st.diff + (if countedPixel d1 d2 w h maxD dAA i then 1 else 0) ∧
    (pixelStep d1 d2 w h maxD alpha aaC dC altC dAA dM st i).aa =
      st.aa + (if aaPixel d1 d2 w h maxD dAA i then 1 else 0) := by
  by_cases hov : |if word32 d1 i = word32 d2 i then (0 : ℚ)
      else colorDelta d1 d2 (i * 4) (i * 4) false| > maxD <;>
    by_cases haa : (dAA &&
      (antialiased d1 (i % w) (i / w) w h d1 d2 ||
        antialiased d2 (i % w) (i / w) w h d2 d1)) = true <;>
    simp [pixelStep, countedPixel, aaPixel, overThreshold, isAAat, hov, haa]

/-- Helper: folding the loop over a pixel list adds the counted and anti-aliased
pixel counts to the incoming state. -/
theorem foldl_pixelStep_counts (d1 d2 : List ℕ) (w h : ℕ) (maxD alpha : ℚ)
    (aaC dC altC : ℚ × ℚ × ℚ) (dAA dM : Bool) (l : List ℕ) :
    ∀ st : CompState,
      ((l.foldl (pixelStep d1 d2 w h maxD alpha aaC dC altC dAA dM) st).diff =
        st.diff + l.countP (countedPixel d1 d2 w h maxD dAA)) ∧
      ((l.foldl (pixelStep d1 d2 w h maxD alpha aaC dC altC dAA dM) st).aa =
        st.aa + l.countP (aaPixel d1 d2 w h maxD dAA)) := by
  induction l with
  | nil => intro st; simp
  | cons i l ih =>
    intro st
    rw [List.foldl_cons, List.countP_cons, List.countP_cons]
    obtain ⟨h1, h2⟩ := pixelStep_counts d1 d2 w h maxD alpha aaC dC altC dAA dM st i
    obtain ⟨ih1, ih2⟩ := ih (pixelStep d1 d2 w h maxD alpha aaC dC altC dAA dM st i)
    rw [ih1, ih2, h1, h2]
    constructor <;> split_ifs <;> omega

/-- Helper: counted plus anti-aliased pixels are exactly the over-threshold pixels. -/
theorem countP_counted_add_aa (d1 d2 : List ℕ) (w h : ℕ) (maxD : ℚ) (dAA : Bool)
    (l : List ℕ) :
    l.countP (countedPixel d1 d2 w h maxD dAA) + l.countP (aaPixel d1 d2 w h maxD dAA) =
      l.countP (overThreshold d1 d2 maxD) := by
  induction l with
  | nil => simp
  | cons i l ih =>
    rw [List.countP_cons, List.countP_cons, List.countP_cons]
    have hsplit : (if countedPixel d1 d2 w h maxD dAA i then 1 else 0) +
        (if aaPixel d1 d2 w h maxD dAA i then (1 : ℕ) else 0) =
        if overThreshold d1 d2 maxD i then 1 else 0 := by
      cases hov : overThreshold d1 d2 maxD i <;>
        cases haa : dAA && isAAat d1 d2 w h i <;>
        simp [countedPixel, aaPixel, hov, haa]
    omega

/-- Helper: the threshold cutoff of an option record is nonnegative. -/
theorem maxDeltaOf_nonneg (opts : PixelmatchOptions) : 0 ≤ maxDeltaOf opts := by
  rw [maxDeltaOf]
  nlinarith [mul_self_nonneg (opts.threshold.getD 0.1)]

/-- Helper: a successful comparison's counters are exactly the counted and
anti-aliased pixel counts over the pixel range (covering both the identical fast
path and the main loop). -/
theorem pixelmatch_ok_counts (img1 img2 : Image) (opts : PixelmatchOptions)
    (r : PixelmatchResult) (o : Option Buffer)
    (hok : pixelmatch img1 img2 opts = Except.ok (r, o)) :
    r.diffCount = (List.range (img1.width * img1.height)).countP
        (countedPixel img1.data img2.data img1.width img1.height (maxDeltaOf opts)
          (opts.detectAntiAliasing.getD true)) ∧
    r.aaCount = (List.range (img1.width * img1.height)).countP
        (aaPixel img1.data img2.data img1.width img1.height (maxDeltaOf opts)
          (opts.detectAntiAliasing.getD true)) := by
  simp only [pixelmatch] at hok
  split at hok
  · exact absurd hok (by simp)
  · split at hok
    case isTrue hid =>
      rw [Except.ok.injEq, Prod.mk.injEq] at hok
      obtain ⟨hr, _⟩ := hok
      have hover : ∀ i ∈ List.range (img1.width * img1.height),
          ¬ overThreshold img1.data img2.data (maxDeltaOf opts) i = true := by
        intro i hi
        have hw := List.all_eq_true.mp hid i hi
        rw [beq_iff_eq] at hw
        simp only [overThreshold, hw, if_pos, ite_true, abs_zero, decide_eq_true_eq]
        have := maxDeltaOf_nonneg opts
        intro hc
        linarith
      have hcnt : ∀ p : ℕ → Bool,
          (∀ i, p i = true → overThreshold img1.data img2.data (maxDeltaOf opts) i = true) →
          (List.range (img1.width * img1.height)).countP p = 0 := by
        intro p hp
        rw [List.countP_eq_zero]
        intro i hi hpi
        exact hover i hi (hp i hpi)
      rw [← hr]
      constructor
      · rw [buildResult]
        exact (hcnt _ fun i hc => ((by simpa [countedPixel] using hc :
          overThreshold img1.data img2.data (maxDeltaOf opts) i = true ∧ _)).1).symm
      · rw [buildResult]
        exact (hcnt _ fun i hc => ((by simpa [aaPixel] using hc :
          overThreshold img1.data img2.data (maxDeltaOf opts) i = true ∧ _)).1).symm
    case isFalse hid =>
      rw [Except.ok.injEq, Prod.mk.injEq] at hok
      obtain ⟨hr, _⟩ := hok
      obtain ⟨hd, ha⟩ := foldl_pixelStep_counts img1.data img2.data img1.width img1.height
        (35215 * opts.threshold.getD 0.1 * opts.threshold.getD 0.1) (opts.alpha.getD 0.1)
        (opts.aaColor.getD (255, 255, 0)) (opts.diffColor.getD (255, 0, 0))
        (opts.diffColorAlt.getD (opts.diffColor.getD (255, 0, 0)))
        (opts.detectAntiAliasing.getD true) (opts.diffMask.getD false)
        (List.range (img1.width * img1.height)) ⟨0, 0, opts.output⟩
      rw [← hr]
      rw [buildResult]
      constructor
      · simpa [maxDeltaOf] using hd
      · simpa [maxDeltaOf] using ha

/-- C1: with all other options equal, disabling anti-aliasing detection yields a
diff count equal to the enabled run's diff count plus its anti-aliased count, and
reports no anti-aliased pixels. -/
theorem aa_toggle_complementarity (img1 img2 : Image) (opts : PixelmatchOptions)
    (rF rT : PixelmatchResult) (oF oT : Option Buffer)
    (hF : pixelmatch img1 img2 { opts with detectAntiAliasing := some false } =
      Except.ok (rF, oF))
    (hT : pixelmatch img1 img2 { opts with detectAntiAliasing := some true } =
      Except.ok (rT, oT)) :
    rF.diffCount = rT.diffCount + rT.aaCount ∧ rF.aaCount = 0 := by
  obtain ⟨hFd, hFa⟩ := pixelmatch_ok_counts _ _ _ _ _ hF
  obtain ⟨hTd, hTa⟩ := pixelmatch_ok_counts _ _ _ _ _ hT
  simp only [Option.getD_some] at hFd hFa hTd hTa
  have hmdF : maxDeltaOf { opts with detectAntiAliasing := some false } = maxDeltaOf opts := by
    simp [maxDeltaOf]
  have hmdT : maxDeltaOf { opts with detectAntiAliasing := some true } = maxDeltaOf opts := by
    simp [maxDeltaOf]
  rw [hmdF] at hFd hFa
  rw [hmdT] at hTd hTa
  have hcf : countedPixel img1.data img2.data img1.width img1.height (maxDeltaOf opts) false =
      overThreshold img1.data img2.data (maxDeltaOf opts) := by
    funext i; simp [countedPixel]
  have haf : aaPixel img1.data img2.data img1.width img1.height (maxDeltaOf opts) false =
      fun _ => false := by
    funext i; simp [aaPixel]
  constructor
  · rw [hFd, hTd, hTa, hcf, countP_counted_add_aa]
  · rw [hFa, haf]
    simp

/-- C1 witness: a 1x1 self-comparison succeeds under both settings and satisfies
the complementarity. -/
theorem aa_toggle_complementarity_witness :
    pixelmatch img1x1 img1x1 { emptyOptions with detectAntiAliasing := some false } =
      Except.ok (buildResult 0 0 1 true, none) ∧
    pixelmatch img1x1 img1x1 { emptyOptions with detectAntiAliasing := some true } =
      Except.ok (buildResult 0 0 1 true, none) ∧
    ((buildResult 0 0 1 true).diffCount =
      (buildResult 0 0 1 true).diffCount + (buildResult 0 0 1 true).aaCount ∧
    (buildResult 0 0 1 true).aaCount = 0) := by
  have hF : pixelmatch img1x1 img1x1 { emptyOptions with detectAntiAliasing := some false } =
      Except.ok (buildResult 0 0 1 true, none) := by
    norm_num [pixelmatch, validateInput, emptyOptions, img1x1, List.range_succ, word32, byte]
  have hT : pixelmatch img1x1 img1x1 { emptyOptions with detectAntiAliasing := some true } =
      Except.ok (buildResult 0 0 1 true, none) := by
    norm_num [pixelmatch, validateInput, emptyOptions, img1x1, List.range_succ, word32, byte]
  exact ⟨hF, hT, aa_toggle_complementarity img1x1 img1x1 emptyOptions _ _ _ _ hF hT⟩

/-- C6: comparing any image with itself succeeds with no differences, no
anti-aliased pixels, the identical flag set, and a zero diff percentage. -/
theorem pixelmatch_self_identity (img : Image) (opts : PixelmatchOptions)
    (r : PixelmatchResult) (o : Option Buffer)
    (h : pixelmatch img img opts = Except.ok (r, o)) :
    r.diffCount = 0 ∧ r.aaCount = 0 ∧ r.identical = true ∧ r.diffPercentage = 0 := by
  simp only [pixelmatch] at h
  split at h
  · exact absurd h (by simp)
  · have hid : (List.range (img.width * img.height)).all
        (fun i => word32 img.data i == word32 img.data i) = true := by
      rw [List.all_eq_true]
      intro i _
      exact beq_self_eq_true _
    rw [if_pos hid, Except.ok.injEq, Prod.mk.injEq] at h
    obtain ⟨hr, _⟩ := h
    rw [← hr]
    refine ⟨rfl, rfl, rfl, ?_⟩
    rw [buildResult]
    simp

/-- C6 witness: a concrete 1x1 self-comparison. -/
theorem pixelmatch_self_identity_witness :
    pixelmatch img1x1 img1x1 emptyOptions = Except.ok (buildResult 0 0 1 true, none) ∧
    ((buildResult 0 0 1 true).diffCount = 0 ∧ (buildResult 0 0 1 true).aaCount = 0 ∧
      (buildResult 0 0 1 true).identical = true ∧
      (buildResult 0 0 1 true).diffPercentage = 0) := by
  have h : pixelmatch img1x1 img1x1 emptyOptions = Except.ok (buildResult 0 0 1 true, none) := by
    norm_num [pixelmatch, validateInput, emptyOptions, img1x1, List.range_succ, word32, byte]
  exact ⟨h, pixelmatch_self_identity img1x1 emptyOptions _ _ h⟩

/-- C7: for fixed images and detection setting, the number of pixels exceeding the
colour cutoff — the sum of diff and anti-aliased counts — does not increase as the
threshold grows from 0 to 1. -/
theorem pixelmatch_threshold_monotone (img1 img2 : Image) (opts : PixelmatchOptions)
    (t1 t2 : ℚ) (r1 r2 : PixelmatchResult) (o1 o2 : Option Buffer)
    (ht0 : 0 ≤ t1) (ht12 : t1 ≤ t2) (ht21 : t2 ≤ 1)
    (h1 : pixelmatch img1 img2 { opts with threshold := some t1 } = Except.ok (r1, o1))
    (h2 : pixelmatch img1 img2 { opts with threshold := some t2 } = Except.ok (r2, o2)) :
    r2.diffCount + r2.aaCount ≤ r1.diffCount + r1.aaCount := by
  obtain ⟨h1d, h1a⟩ := pixelmatch_ok_counts _ _ _ _ _ h1
  obtain ⟨h2d, h2a⟩ := pixelmatch_ok_counts _ _ _ _ _ h2
  rw [h1d, h1a, h2d, h2a, countP_counted_add_aa, countP_counted_add_aa]
  have hmd1 : maxDeltaOf { opts with threshold := some t1 } = 35215 * t1 * t1 := by
    simp [maxDeltaOf]
  have hmd2 : maxDeltaOf { opts with threshold := some t2 } = 35215 * t2 * t2 := by
    simp [maxDeltaOf]
  rw [hmd1, hmd2]
  apply List.countP_mono_left
  intro i _ hc
  simp only [overThreshold, decide_eq_true_eq] at hc ⊢
  have hle : 35215 * t1 * t1 ≤ 35215 * t2 * t2 := by nlinarith
  linarith

/-- C7 witness: black versus white 1x1 images at thresholds 0 and 1 — the cutoff-0
run counts the pixel, the cutoff-1 run does not. -/
theorem pixelmatch_threshold_monotone_witness :
    (0 : ℚ) ≤ 0 ∧ (0 : ℚ) ≤ 1 ∧ (1 : ℚ) ≤ 1 ∧
    pixelmatch imgBlack1 imgWhite1 { emptyOptions with threshold := some 0 } =
      Except.ok (buildResult 1 0 1 false, none) ∧
    pixelmatch imgBlack1 imgWhite1 { emptyOptions with threshold := some 1 } =
      Except.ok (buildResult 0 0 1 false, none) ∧
    (buildResult 0 0 1 false).diffCount + (buildResult 0 0 1 false).aaCount ≤
      (buildResult 1 0 1 false).diffCount + (buildResult 1 0 1 false).aaCount := by
  have h1 : pixelmatch imgBlack1 imgWhite1 { emptyOptions with threshold := some 0 } =
      Except.ok (buildResult 1 0 1 false, none) := by
    norm_num [pixelmatch, validateInput, emptyOptions, imgBlack1, imgWhite1, List.range_succ,
      word32, byte, pixelStep, colorDelta, antialiased, neighborList, borderInit, pass1,
      abs_of_pos, abs_of_nonpos]
  have h2 : pixelmatch imgBlack1 imgWhite1 { emptyOptions with threshold := some 1 } =
      Except.ok (buildResult 0 0 1 false, none) := by
    norm_num [pixelmatch, validateInput, emptyOptions, imgBlack1, imgWhite1, List.range_succ,
      word32, byte, pixelStep, colorDelta, antialiased, neighborList, borderInit, pass1,
      abs_of_pos, abs_of_nonpos]
  exact ⟨le_refl 0, by norm_num, le_refl 1, h1, h2,
    pixelmatch_threshold_monotone imgBlack1 imgWhite1 emptyOptions 0 1 _ _ _ _
      (le_refl 0) (by norm_num) (le_refl 1) h1 h2⟩

/-- C8: word-for-word identical buffers take the fast path — zero counts, the
identical flag set — and, when an output buffer was supplied and `diffMask` is off,
the final output is the grayscale blend of every pixel of image 1. -/
theorem pixelmatch_identical_fastpath (img1 img2 : Image) (opts : PixelmatchOptions)
    (r : PixelmatchResult) (o : Option Buffer)
    (hw : ∀ i < img1.width * img1.height, word32 img1.data i = word32 img2.data i)
    (h : pixelmatch img1 img2 opts = Except.ok (r, o)) :
    r.diffCount = 0 ∧ r.aaCount = 0 ∧ r.identical = true ∧
    (opts.diffMask.getD false = false →
      o = opts.output.map
        (grayAll img1.data (img1.width * img1.height) (opts.alpha.getD 0.1))) := by
  simp only [pixelmatch] at h
  split at h
  · exact absurd h (by simp)
  · have hid : (List.range (img1.width * img1.height)).all
        (fun i => word32 img1.data i == word32 img2.data i) = true := by
      rw [List.all_eq_true]
      intro i hi
      exact beq_iff_eq.mpr (hw i (List.mem_range.mp hi))
    rw [if_pos hid, Except.ok.injEq, Prod.mk.injEq] at h
    obtain ⟨hr, ho⟩ := h
    rw [← hr]
    refine ⟨rfl, rfl, rfl, fun hdm => ?_⟩
    rw [← ho, if_neg (by simp [hdm])]

/-- C8 witness: a 1x1 image against itself with a supplied output buffer. -/
theorem pixelmatch_identical_fastpath_witness :
    (∀ i < img1x1.width * img1x1.height, word32 img1x1.data i = word32 img1x1.data i) ∧
    pixelmatch img1x1 img1x1 { emptyOptions with output := some bufZ4 } =
      Except.ok (buildResult 0 0 1 true, some (grayAll img1x1.data 1 (0.1 : ℚ) bufZ4)) ∧
    ((buildResult 0 0 1 true).diffCount = 0 ∧ (buildResult 0 0 1 true).aaCount = 0 ∧
      (buildResult 0 0 1 true).identical = true ∧
      (({ emptyOptions with output := some bufZ4 } : PixelmatchOptions).diffMask.getD false =
          false →
        some (grayAll img1x1.data 1 (0.1 : ℚ) bufZ4) =
          ({ emptyOptions with output := some bufZ4 } : PixelmatchOptions).output.map
            (grayAll img1x1.data (img1x1.width * img1x1.height)
              (({ emptyOptions with output := some bufZ4 } :
                PixelmatchOptions).alpha.getD 0.1)))) := by
  have hw : ∀ i < img1x1.width * img1x1.height,
      word32 img1x1.data i = word32 img1x1.data i := fun i _ => rfl
  have h : pixelmatch img1x1 img1x1 { emptyOptions with output := some bufZ4 } =
      Except.ok (buildResult 0 0 1 true, some (grayAll img1x1.data 1 (0.1 : ℚ) bufZ4)) := by
    norm_num [pixelmatch, validateInput, emptyOptions, img1x1, bufZ4, List.range_succ,
      word32, byte]
  exact ⟨hw, h, pixelmatch_identical_fastpath img1x1 img1x1 _ _ _ hw h⟩

/-- Helper: `drawPixel` leaves every byte outside its 4-byte pixel untouched. -/
theorem drawPixel_data_untouched (o : Buffer) (pos : ℕ) (r g b : ℚ) (j : ℕ)
    (h0 : j ≠ pos) (h1 : j ≠ pos + 1) (h2 : j ≠ pos + 2) (h3 : j ≠ pos + 3) :
    (drawPixel o pos r g b).data j = o.data j := by
  simp [drawPixel, h0, h1, h2, h3]

/-- Helper: with `diffMask` on, one loop iteration keeps the output present and
only touches the 4 bytes of its own pixel, and only when that pixel is counted. -/
theorem pixelStep_out_frame (d1 d2 : List ℕ) (w h : ℕ) (maxD alpha : ℚ)
    (aaC dC altC : ℚ × ℚ × ℚ) (dAA : Bool) (st : CompState) (i : ℕ) (ob : Buffer)
    (hst : st.out = some ob) :
    ∃ ob2, (pixelStep d1 d2 w h maxD alpha aaC dC altC dAA true st i).out = some ob2 ∧
      ∀ j, (countedPixel d1 d2 w h maxD dAA i = false ∨ j / 4 ≠ i) →
        ob2.data j = ob.data j := by
  by_cases hov : |if word32 d1 i = word32 d2 i then (0 : ℚ)
      else colorDelta d1 d2 (i * 4) (i * 4) false| > maxD
  · by_cases haa : (dAA &&
        (antialiased d1 (i % w) (i / w) w h d1 d2 ||
          antialiased d2 (i % w) (i / w) w h d2 d1)) = true
    · exact ⟨ob, by simp [pixelStep, hov, haa, hst], fun j _ => rfl⟩
    · have hcount : countedPixel d1 d2 w h maxD dAA i = true := by
        simp only [countedPixel, overThreshold, isAAat]
        rw [decide_eq_true hov]
        simp only [Bool.true_and, Bool.not_eq_true']
        exact Bool.not_eq_true _ ▸ (Bool.eq_false_iff.mpr haa)
      have hout : (pixelStep d1 d2 w h maxD alpha aaC dC altC dAA true st i).out =
          some (if (if word32 d1 i = word32 d2 i then (0 : ℚ)
              else colorDelta d1 d2 (i * 4) (i * 4) false) < 0 then
            drawPixel ob (i * 4) altC.1 altC.2.1 altC.2.2
          else drawPixel ob (i * 4) dC.1 dC.2.1 dC.2.2) := by
        simp [pixelStep, hov, haa, hst]
      refine ⟨_, hout, fun j hj => ?_⟩
      rcases hj with hj | hj
      · rw [hcount] at hj
        exact absurd hj (by simp)
      · have h4 : j ≠ i * 4 ∧ j ≠ i * 4 + 1 ∧ j ≠ i * 4 + 2 ∧ j ≠ i * 4 + 3 := by omega
        split_ifs <;>
          exact drawPixel_data_untouched ob (i * 4) _ _ _ j h4.1 h4.2.1 h4.2.2.1 h4.2.2.2
  · exact ⟨ob, by simp [pixelStep, hov, hst], fun j _ => rfl⟩

/-- Helper: with `diffMask` on, the whole loop only writes bytes of counted pixels. -/
theorem foldl_pixelStep_frame (d1 d2 : List ℕ) (w h : ℕ) (maxD alpha : ℚ)
    (aaC dC altC : ℚ × ℚ × ℚ) (dAA : Bool) (l : List ℕ) :
    ∀ (st : CompState) (ob : Buffer), st.out = some ob →
      ∃ ob2,
        ((l.foldl (pixelStep d1 d2 w h maxD alpha aaC dC altC dAA true) st).out = some ob2 ∧
        ∀ j, countedPixel d1 d2 w h maxD dAA (j / 4) = false →
          ob2.data j = ob.data j) := by
  induction l with
  | nil => intro st ob hst; exact ⟨ob, hst, fun j _ => rfl⟩
  | cons i l ih =>
    intro st ob hst
    obtain ⟨ob1, h1, hf1⟩ :=
      pixelStep_out_frame d1 d2 w h maxD alpha aaC dC altC dAA st i ob hst
    obtain ⟨ob2, h2, hf2⟩ :=
      ih (pixelStep d1 d2 w h maxD alpha aaC dC altC dAA true st i) ob1 h1
    refine ⟨ob2, by rw [List.foldl_cons]; exact h2, fun j hj => ?_⟩
    rw [hf2 j hj]
    apply hf1
    by_cases hji : j / 4 = i
    · exact Or.inl (hji ▸ hj)
    · exact Or.inr hji

/-- C10: with an output buffer and `diffMask` on, a successful comparison counts
exactly the counted pixels in `diffCount` and leaves every output byte outside the
counted pixels' 4-byte cells at its prior value. -/
theorem pixelmatch_diffmask_frame (img1 img2 : Image) (opts : PixelmatchOptions)
    (O ob : Buffer) (r : PixelmatchResult)
    (hdm : opts.diffMask = some true) (hout : opts.output = some O)
    (h : pixelmatch img1 img2 opts = Except.ok (r, some ob)) :
    r.diffCount = (List.range (img1.width * img1.height)).countP
        (countedPixel img1.data img2.data img1.width img1.height (maxDeltaOf opts)
          (opts.detectAntiAliasing.getD true)) ∧
    ∀ j, countedPixel img1.data img2.data img1.width img1.height (maxDeltaOf opts)
        (opts.detectAntiAliasing.getD true) (j / 4) = false →
      ob.data j = O.data j := by
  refine ⟨(pixelmatch_ok_counts _ _ _ _ _ h).1, ?_⟩
  simp only [pixelmatch] at h
  split at h
  · exact absurd h (by simp)
  · split at h
    case isTrue hid =>
      rw [Except.ok.injEq, Prod.mk.injEq] at h
      obtain ⟨_, ho⟩ := h
      rw [hdm] at ho
      simp only [Option.getD_some, if_true, ite_true] at ho
      rw [hout] at ho
      obtain rfl := (Option.some.injEq _ _).mp ho
      intro j _
      rfl
    case isFalse hid =>
      rw [Except.ok.injEq, Prod.mk.injEq] at h
      obtain ⟨_, ho⟩ := h
      have hdm2 : opts.diffMask.getD false = true := by rw [hdm]; rfl
      rw [hdm2] at ho
      obtain ⟨ob2, h2, hf⟩ := foldl_pixelStep_frame img1.data img2.data img1.width img1.height
        (35215 * opts.threshold.getD 0.1 * opts.threshold.getD 0.1) (opts.alpha.getD 0.1)
        (opts.aaColor.getD (255, 255, 0)) (opts.diffColor.getD (255, 0, 0))
        (opts.diffColorAlt.getD (opts.diffColor.getD (255, 0, 0)))
        (opts.detectAntiAliasing.getD true)
        (List.range (img1.width * img1.height)) ⟨0, 0, opts.output⟩ O (by rw [hout])
      rw [h2] at ho
      obtain rfl := (Option.some.injEq _ _).mp ho
      intro j hj
      apply hf
      simpa [maxDeltaOf] using hj

/-- C10 witness: an identical 1x1 comparison with `diffMask` on and an output
buffer succeeds, counts nothing, and leaves the buffer untouched. -/
theorem pixelmatch_diffmask_frame_witness :
    ({ emptyOptions with diffMask := some true, output := some bufZ4 } :
      PixelmatchOptions).diffMask = some true ∧
    ({ emptyOptions with diffMask := some true, output := some bufZ4 } :
      PixelmatchOptions).output = some bufZ4 ∧
    pixelmatch img1x1 img1x1 { emptyOptions with diffMask := some true, output := some bufZ4 } =
      Except.ok (buildResult 0 0 1 true, some bufZ4) ∧
    ((buildResult 0 0 1 true).diffCount =
      (List.range (img1x1.width * img1x1.height)).countP
        (countedPixel img1x1.data img1x1.data img1x1.width img1x1.height
          (maxDeltaOf { emptyOptions with diffMask := some true, output := some bufZ4 })
          (({ emptyOptions with diffMask := some true, output := some bufZ4 } :
            PixelmatchOptions).detectAntiAliasing.getD true)) ∧
    ∀ j, countedPixel img1x1.data img1x1.data img1x1.width img1x1.height
        (maxDeltaOf { emptyOptions with diffMask := some true, output := some bufZ4 })
        (({ emptyOptions with diffMask := some true, output := some bufZ4 } :
          PixelmatchOptions).detectAntiAliasing.getD true) (j / 4) = false →
      bufZ4.data j = bufZ4.data j) := by
  have h : pixelmatch img1x1 img1x1
      { emptyOptions with diffMask := some true, output := some bufZ4 } =
      Except.ok (buildResult 0 0 1 true, some bufZ4) := by
    norm_num [pixelmatch, validateInput, emptyOptions, img1x1, bufZ4, List.range_succ,
      word32, byte]
  exact ⟨rfl, rfl, h, pixelmatch_diffmask_frame img1x1 img1x1 _ bufZ4 bufZ4 _ rfl rfl h⟩

/-! ## Legacy adapter (C9) -/

/-- C9: whenever the core comparison succeeds on the options the adapter builds —
every recognized option passed through, `detectAntiAliasing` the negation of
`includeAA` (absent staying absent), the positional output forwarded — the legacy
adapter returns exactly that run's diff count. -/
theorem compat_adapter_refines (img1 img2 : List ℕ) (output : Option Buffer)
    (width height : ℕ) (lo : LegacyPixelmatchOptions) (r : PixelmatchResult)
    (o : Option Buffer)
    (h : pixelmatch ⟨img1, width, height⟩ ⟨img2, width, height⟩
      { threshold := lo.threshold
        alpha := lo.alpha
        aaColor := lo.aaColor
        diffColor := lo.diffColor
        detectAntiAliasing := lo.includeAA.map fun b => !b
        diffColorAlt := lo.diffColorAlt
        diffMask := lo.diffMask
        output := output } = Except.ok (r, o)) :
    compatPixelmatch img1 img2 output width height lo = Except.ok r.diffCount := by
  rw [compatPixelmatch, h]
  rfl

/-- C9 witness: the adapter on a 1x1 self-comparison with empty legacy options. -/
theorem compat_adapter_refines_witness :
    pixelmatch ⟨img1x1.data, 1, 1⟩ ⟨img1x1.data, 1, 1⟩
      { threshold := emptyLegacyOptions.threshold
        alpha := emptyLegacyOptions.alpha
        aaColor := emptyLegacyOptions.aaColor
        diffColor := emptyLegacyOptions.diffColor
        detectAntiAliasing := emptyLegacyOptions.includeAA.map fun b => !b
        diffColorAlt := emptyLegacyOptions.diffColorAlt
        diffMask := emptyLegacyOptions.diffMask
        output := none } = Except.ok (buildResult 0 0 1 true, none) ∧
    compatPixelmatch img1x1.data img1x1.data none 1 1 emptyLegacyOptions =
      Except.ok (buildResult 0 0 1 true).diffCount := by
  have h : pixelmatch ⟨img1x1.data, 1, 1⟩ ⟨img1x1.data, 1, 1⟩
      { threshold := emptyLegacyOptions.threshold
        alpha := emptyLegacyOptions.alpha
        aaColor := emptyLegacyOptions.aaColor
        diffColor := emptyLegacyOptions.diffColor
        detectAntiAliasing := emptyLegacyOptions.includeAA.map fun b => !b
        diffColorAlt := emptyLegacyOptions.diffColorAlt
        diffMask := emptyLegacyOptions.diffMask
        output := none } = Except.ok (buildResult 0 0 1 true, none) := by
    norm_num [pixelmatch, validateInput, emptyLegacyOptions, img1x1, List.range_succ,
      word32, byte]
  exact ⟨h, compat_adapter_refines img1x1.data img1x1.data none 1 1 emptyLegacyOptions _ _ h⟩
